import Mathlib

/-!
Shallow embedding of the Quatt Modbus sniffer (`quatt_modbus_sniffer.py`).

Byte strings are modelled as `List Nat` (Python `bytes`: each element is a
value in `0..255`; the arithmetic below matches Python's big-integer
semantics, so no modular truncation is needed anywhere).  Floating point
scales/offsets are modelled exactly as rationals, and `time.time()`
timestamps as rationals.
-/

/-- Constant `MAX_BUFFER_SIZE` from the source. -/
def MAX_BUFFER_SIZE : Nat := 512

/-- Constant `BUFFER_CLEANUP_SIZE` from the source. -/
def BUFFER_CLEANUP_SIZE : Nat := 256

/-- Constant `MIN_FRAME_SIZE` from the source. -/
def MIN_FRAME_SIZE : Nat := 4

/-- Constant `MAX_FRAME_SIZE` from the source. -/
def MAX_FRAME_SIZE : Nat := 256

/-- Constant `TEMPERATURE_MIN` from the source. -/
def TEMPERATURE_MIN : ℚ := -30

/-- Constant `TEMPERATURE_MAX` from the source. -/
def TEMPERATURE_MAX : ℚ := 150

/-- Constant `MODBUS_CRC_INIT` from the source. -/
def MODBUS_CRC_INIT : Nat := 0xFFFF

/-- Constant `MODBUS_CRC_POLY` from the source. -/
def MODBUS_CRC_POLY : Nat := 0xA001

/-- Constant `STATS_PUBLISH_INTERVAL` from the source. -/
def STATS_PUBLISH_INTERVAL : Nat := 50

/-- One step of the inner loop of `calculate_crc`: xor the byte in, then do
eight shift/xor rounds with the polynomial. -/
def crc16_update (crc : Nat) (byte : Nat) : Nat :=
  (List.range 8).foldl
    (fun c _ => if c &&& 1 = 1 then (c >>> 1) ^^^ MODBUS_CRC_POLY else c >>> 1)
    (crc ^^^ byte)

/-- `QuattModbusSniffer.calculate_crc`: Modbus CRC16 over the data bytes,
returned as two bytes little-endian (`struct.pack('<H', crc)`). -/
def calculate_crc (data : List Nat) : List Nat :=
  let crc := data.foldl crc16_update MODBUS_CRC_INIT
  [crc % 256, crc / 256 % 256]

/-- `QuattModbusSniffer.verify_crc`: frames shorter than `MIN_FRAME_SIZE`
are rejected; otherwise the trailing two bytes (`frame[-2:]`) must equal the
CRC16 of the rest (`frame[:-2]`). -/
def verify_crc (frame : List Nat) : Bool :=
  if frame.length < MIN_FRAME_SIZE then false
  else
    let data := frame.take (frame.length - 2)
    let received_crc := frame.drop (frame.length - 2)
    received_crc == calculate_crc data

/-- The candidate frame lengths tried at one start offset in
`extract_frames`: Python's `range(MIN_FRAME_SIZE, min(len(remaining) + 1,
MAX_FRAME_SIZE))`, as a list. -/
def candidateLengths (rem : Nat) : List Nat :=
  List.range' MIN_FRAME_SIZE (min (rem + 1) MAX_FRAME_SIZE - MIN_FRAME_SIZE)

/-- The inner loop of `extract_frames` at one start offset: the first
candidate length whose prefix of `remaining` passes `verify_crc`. -/
def findLen (remaining : List Nat) : Option Nat :=
  (candidateLengths remaining.length).find? (fun l => verify_crc (remaining.take l))

/-- The sliding-window search of `extract_frames`: the first start offset
(in `range(len(buffer) - 3)`) at which some candidate length verifies,
together with that (first) length. -/
def findFrame (buffer : List Nat) : Option (Nat × Nat) :=
  (List.range (buffer.length - 3)).findSome?
    (fun s => (findLen (buffer.drop s)).map (fun l => (s, l)))

/-- The loop of `QuattModbusSniffer.extract_frames`, with an explicit fuel
bounding the number of `while` iterations.  Every continuing iteration
strictly shrinks the buffer (a found frame consumes at least
`MIN_FRAME_SIZE` bytes; the overflow cleanup drops `BUFFER_CLEANUP_SIZE`
bytes), so fuel `buffer.length` is always enough; `extract_frames_fuel_congr`
below proves the result does not depend on the fuel once it is at least the
buffer length.  Returns the processed frames in order, and the retained
buffer. -/
def extract_frames_fuel : Nat → List Nat → List (List Nat) × List Nat
  | 0, buffer => ([], buffer)
  | fuel + 1, buffer =>
    if MIN_FRAME_SIZE ≤ buffer.length then
      match findFrame buffer with
      | some (s, l) =>
        (((buffer.drop s).take l) ::
            (extract_frames_fuel fuel (buffer.drop (s + l))).1,
         (extract_frames_fuel fuel (buffer.drop (s + l))).2)
      | none =>
        if MAX_BUFFER_SIZE < buffer.length then
          extract_frames_fuel fuel (buffer.drop BUFFER_CLEANUP_SIZE)
        else ([], buffer)
    else ([], buffer)

/-- `QuattModbusSniffer.extract_frames`: frames extracted (in processing
order) and the buffer retained for more data. -/
def extract_frames (buffer : List Nat) : List (List Nat) × List Nat :=
  extract_frames_fuel buffer.length buffer

/-- `QuattModbusSniffer.is_modbus_request`: classify a frame as request
(true) or response (false) from the function code and the frame length. -/
def is_modbus_request (function_code : Nat) (frame_data : List Nat) : Bool :=
  if function_code &&& 0x80 ≠ 0 then false
  else if function_code ∈ [0x01, 0x02, 0x03, 0x04] then
    decide (frame_data.length ≤ 8)
  else if function_code = 0x06 then decide (frame_data.length = 8)
  else if function_code = 0x10 then decide (9 < frame_data.length)
  else true

/-- One entry of `QuattDataParser.register_mappings`.  The Python float
scales (`0.01`, `0.1`, `0.618`) are embedded as exact rationals. -/
structure RegisterMapping where
  name : String
  unit : String
  scale : ℚ
  offset : ℚ
  device_class : Option String
deriving DecidableEq, Repr

/-- `QuattDataParser.register_mappings`: the Quatt register table, as a
partial map from register address to mapping. -/
def register_mappings : Nat → Option RegisterMapping
  | 1999 => some ⟨"Compressor Level set by CiC", "", 1, 0, none⟩
  | 2010 => some ⟨"Pump Mode set by CiC", "", 1, 0, none⟩
  | 2015 => some ⟨"Pump Level set by CiC", "%", 1/100, 0, none⟩
  | 3999 => some ⟨"Working Mode set by CiC", "", 1, 0, none⟩
  | 2099 => some ⟨"Working Mode Actual", "", 1, 0, none⟩
  | 2100 => some ⟨"Compressor AC Voltage", "V", 1, 0, some "voltage"⟩
  | 2101 => some ⟨"Compressor AC Current", "A", 1/10, 0, some "current"⟩
  | 2102 => some ⟨"Compressor Frequency Demand", "Hz", 1, 0, some "frequency"⟩
  | 2103 => some ⟨"Compressor Frequency Actual", "Hz", 1, 0, some "frequency"⟩
  | 2104 => some ⟨"Fan Speed Maximum", "RPM", 1, 0, some "speed"⟩
  | 2105 => some ⟨"Fan Speed Actual", "RPM", 1, 0, some "speed"⟩
  | 2107 => some ⟨"Electric Expansion Valve", "p", 1, 0, none⟩
  | 2108 => some ⟨"Status Bits R2108", "", 1, 0, none⟩
  | 2109 => some ⟨"EV1 Steps", "p", 1, 0, none⟩
  | 2110 => some ⟨"Outside Temperature", "°C", 1/100, -3000, some "temperature"⟩
  | 2111 => some ⟨"Evaporator Coil Temperature", "°C", 1/100, -3000, some "temperature"⟩
  | 2112 => some ⟨"Gas Discharge Temperature", "°C", 1/100, -3000, some "temperature"⟩
  | 2113 => some ⟨"Gas Return Temperature", "°C", 1/100, -3000, some "temperature"⟩
  | 2116 => some ⟨"Evaporator Pressure", "bar", 1/10, 0, some "pressure"⟩
  | 2117 => some ⟨"Condenser Pressure", "bar", 1/10, 0, some "pressure"⟩
  | 2118 => some ⟨"Defrost Mode", "", 1, 0, none⟩
  | 2119 => some ⟨"Status Bits R2119", "", 1, 0, none⟩
  | 2120 => some ⟨"Status Bits R2120", "", 1, 0, none⟩
  | 2121 => some ⟨"Status Bits R2121", "", 1, 0, none⟩
  | 2122 => some ⟨"Firmware Version", "", 1, 0, none⟩
  | 2123 => some ⟨"EEPROM Version", "", 1, 0, none⟩
  | 2131 => some ⟨"Condensing Temperature", "°C", 1/100, -3000, some "temperature"⟩
  | 2132 => some ⟨"Evaporating Temperature", "°C", 1/100, -3000, some "temperature"⟩
  | 2133 => some ⟨"Water In Temperature", "°C", 1/100, -3000, some "temperature"⟩
  | 2134 => some ⟨"Water Out Temperature", "°C", 1/100, -3000, some "temperature"⟩
  | 2135 => some ⟨"Condenser Coil Temperature", "°C", 1/100, -3000, some "temperature"⟩
  | 2137 => some ⟨"Pump Power", "W", 1/10, 0, some "power"⟩
  | 2138 => some ⟨"Pump Flow", "L/h", 618/1000, 0, some "volume_flow_rate"⟩
  | _ => none

/-- One entry of the `r2108_bits` / `r2119_bits` tables. -/
structure BitInfo where
  name : String
  bitmask : Nat
deriving DecidableEq, Repr

/-- `QuattDataParser.r2108_bits`, in the Python dict's insertion order. -/
def r2108_bits : List (Nat × BitInfo) :=
  [(0, ⟨"Fan Low Speed Mode", 0x1⟩),
   (2, ⟨"Bottom Heater", 0x4⟩),
   (3, ⟨"Crankcase Heater", 0x8⟩),
   (4, ⟨"Fan Defrost Speed Mode", 0x10⟩),
   (5, ⟨"Fan High Speed Mode", 0x20⟩),
   (6, ⟨"4way Valve", 0x40⟩),
   (11, ⟨"Pump Relay", 0x800⟩)]

/-- `QuattDataParser.r2119_bits`, in the Python dict's insertion order. -/
def r2119_bits : List (Nat × BitInfo) :=
  [(0, ⟨"Alarm - Main Line Current", 0x1⟩),
   (3, ⟨"Info - Compressor Oil Return", 0x8⟩),
   (4, ⟨"Alarm - High Pressure Switch", 0x10⟩),
   (6, ⟨"Alarm - 1st Start Pre-heat", 0x40⟩),
   (9, ⟨"Alarm - AC High/Low Voltage", 0x200⟩),
   (12, ⟨"Alarm - Low Pressure Switch", 0x1000⟩)]

/-- A Python dict with insertion order, as an association list.
`dictSet m k v` is `m[k] = v`: replace in place if the key exists,
otherwise append at the end. -/
def dictSet {κ α : Type} [DecidableEq κ] (m : List (κ × α)) (k : κ) (v : α) :
    List (κ × α) :=
  if m.any (fun p => decide (p.1 = k)) then
    m.map (fun p => if p.1 = k then (k, v) else p)
  else m ++ [(k, v)]

/-- Python `m[k]` / `m.get(k)`: look up a key in an insertion-ordered
dict. -/
def dictGet {κ α : Type} [DecidableEq κ] (m : List (κ × α)) (k : κ) : Option α :=
  (m.find? (fun p => decide (p.1 = k))).map Prod.snd

/-- Python `del m[k]`: remove a key from an insertion-ordered dict. -/
def dictDel {κ α : Type} [DecidableEq κ] (m : List (κ × α)) (k : κ) :
    List (κ × α) :=
  m.filter (fun p => decide (p.1 ≠ k))

/-- The value stored in a `SensorReading`: a scaled number or a status
bit. -/
inductive ReadingValue : Type where
  | num (q : ℚ)
  | bval (b : Bool)
deriving DecidableEq, Repr

/-- The `register` field of a sensor reading: Python stores either the
integer register address or a `"<address>b<bit>"` string. -/
inductive RegRef : Type where
  | reg (addr : Nat)
  | regbit (s : String)
deriving DecidableEq, Repr

/-- One entry of the `parsed_data` dict built by
`QuattDataParser.parse_read_response`.  `raw_value` is the value after the
signed-16-bit reinterpretation (the Python code rebinds `value` before
storing it). -/
structure SensorReading where
  value : ReadingValue
  unit : String
  device_class : Option String
  register : RegRef
  raw_value : Int
deriving DecidableEq, Repr

/-- The signed-16-bit reinterpretation step of
`QuattDataParser.parse_read_response`: temperature-class raw values above
32767 become `value - 65536`. -/
def decode_signed (mapping : RegisterMapping) (raw : Nat) : Int :=
  if mapping.device_class = some "temperature" ∧ 32767 < raw then
    (raw : Int) - 65536
  else (raw : Int)

/-- The scalar decoding pipeline of `QuattDataParser.parse_read_response`
for one register value: signed reinterpretation, add offset, multiply by
scale, and clamp temperatures to `[TEMPERATURE_MIN, TEMPERATURE_MAX]`. -/
def decode_value (mapping : RegisterMapping) (raw : Nat) : ℚ :=
  let value := decode_signed mapping raw
  let offset_value : ℚ := (value : ℚ) + mapping.offset
  let scaled_value := offset_value * mapping.scale
  if mapping.device_class = some "temperature" then
    max TEMPERATURE_MIN (min scaled_value TEMPERATURE_MAX)
  else scaled_value

/-- `QuattDataParser._parse_status_bits`: for every entry of the bit table
add a boolean reading named `"<prefix> <bit name>"` with register
descriptor `"<address>b<bit index>"`. -/
def parse_status_bits (parsed_data : List (String × SensorReading))
    (value : Int) (register_addr : Nat) (bit_mappings : List (Nat × BitInfo))
    (pre : String) : List (String × SensorReading) :=
  bit_mappings.foldl
    (fun pd bp =>
      let bit_value := decide (Int.land value (bp.2.bitmask : Int) ≠ 0)
      dictSet pd (pre ++ " " ++ bp.2.name)
        ⟨.bval bit_value, "", some "binary_sensor",
         .regbit (toString register_addr ++ "b" ++ toString bp.1), value⟩)
    parsed_data

/-- The body of the `for i, value in enumerate(values)` loop of
`QuattDataParser.parse_read_response`, iterated over the remaining values
(index `i`, accumulated dict `pd`). -/
def parse_read_response_go (start_register : Nat) :
    Nat → List Nat → List (String × SensorReading) → List (String × SensorReading)
  | _, [], pd => pd
  | i, v :: rest, pd =>
    let register_addr := start_register + i
    let pd' :=
      match register_mappings register_addr with
      | none => pd
      | some mapping =>
        let value := decode_signed mapping v
        let scaled_value := decode_value mapping v
        let pd1 := dictSet pd mapping.name
          ⟨.num scaled_value, mapping.unit, mapping.device_class,
           .reg register_addr, value⟩
        if register_addr = 2108 then
          parse_status_bits pd1 value register_addr r2108_bits "R2108"
        else if register_addr = 2118 then
          dictSet pd1 "Defrost Mode Active"
            ⟨.bval (decide (Int.land value 1 ≠ 0)), "", some "binary_sensor",
             .regbit "2118b0", value⟩
        else if register_addr = 2119 then
          parse_status_bits pd1 value register_addr r2119_bits "R2119"
        else pd1
    parse_read_response_go start_register (i + 1) rest pd'

/-- `QuattDataParser.parse_read_response`: parse a block of register values
starting at `start_register` into the `parsed_data` dict. -/
def parse_read_response (start_register : Nat) (values : List Nat) :
    List (String × SensorReading) :=
  parse_read_response_go start_register 0 values []

/-- The `self.stats` counter dict of `QuattModbusSniffer` (also used per
slave in `slave_stats`). -/
structure Stats where
  total_frames : Nat
  valid_frames : Nat
  requests : Nat
  responses : Nat
  errors : Nat
  mqtt_publishes : Nat
deriving DecidableEq, Repr

/-- The zero-initialised counters (`__init__` / `update_slave_stats`). -/
def initStats : Stats := ⟨0, 0, 0, 0, 0, 0⟩

/-- A key of the stats dict, for `update_slave_stats`'s `stat_type`
argument. -/
inductive StatField : Type where
  | total_frames
  | valid_frames
  | requests
  | responses
  | errors
  | mqtt_publishes
deriving DecidableEq, Repr

/-- Bump one counter of a `Stats` record. -/
def bumpStat (s : Stats) : StatField → Stats
  | .total_frames => {s with total_frames := s.total_frames + 1}
  | .valid_frames => {s with valid_frames := s.valid_frames + 1}
  | .requests => {s with requests := s.requests + 1}
  | .responses => {s with responses := s.responses + 1}
  | .errors => {s with errors := s.errors + 1}
  | .mqtt_publishes => {s with mqtt_publishes := s.mqtt_publishes + 1}

/-- `QuattModbusSniffer.update_slave_stats`: create the per-slave counters
on first sight, then bump the named counter. -/
def update_slave_stats (slave_stats : List (Nat × Stats)) (slave_id : Nat)
    (stat_type : StatField) : List (Nat × Stats) :=
  let m := if (dictGet slave_stats slave_id).isSome then slave_stats
           else dictSet slave_stats slave_id initStats
  match dictGet m slave_id with
  | some s => dictSet m slave_id (bumpStat s stat_type)
  | none => m

/-- One entry of `self.pending_requests` (keyed by device id). -/
structure PendingReq where
  frame : List Nat
  time : ℚ
  function_code : Nat
deriving DecidableEq, Repr

/-- The mutable state of `QuattModbusSniffer` touched by
`process_frame`.  MQTT publishing is modelled as externally observable
events, not state, so `errors` (no exceptions in the pure model) and
`mqtt_publishes` stay zero. -/
structure SnifferState where
  stats : Stats
  slave_stats : List (Nat × Stats)
  pending_requests : List (Nat × PendingReq)
deriving DecidableEq, Repr

/-- The state after `QuattModbusSniffer.__init__`. -/
def initState : SnifferState := ⟨initStats, [], []⟩

/-- The externally observable outcome of one `process_frame` call: for a
response the logged `response_time_ms` (`0` when no request is pending)
and the matched request frame (`None` when no request is pending). -/
inductive FrameEvent : Type where
  | request (device_id : Nat)
  | response (device_id : Nat) (response_time_ms : ℚ)
      (request_frame : Option (List Nat))
deriving DecidableEq, Repr

/-- The result of one `process_frame` call: the new state, the observable
event, and whether `publish_stats` was invoked on this frame. -/
structure ProcResult where
  state : SnifferState
  event : Option FrameEvent
  published : Bool
deriving DecidableEq, Repr

/-- `QuattModbusSniffer.process_frame` (its pure state/observation part):
count the frame, classify request/response with `is_modbus_request`,
store or consume the pending request for the device, and invoke
`publish_stats` when `total_frames` is a multiple of
`STATS_PUBLISH_INTERVAL`. -/
def process_frame (st : SnifferState) (frame_data : List Nat) (now : ℚ) :
    ProcResult :=
  let stats := bumpStat st.stats .total_frames
  if frame_data.length < MIN_FRAME_SIZE then
    ⟨{st with stats := stats}, none, false⟩
  else
    let device_id := frame_data.getD 0 0
    let function_code := frame_data.getD 1 0
    if is_modbus_request function_code frame_data then
      let stats := bumpStat stats .requests
      let slave := update_slave_stats st.slave_stats device_id .requests
      let pending := dictSet st.pending_requests device_id
        ⟨frame_data, now, function_code⟩
      let stats := bumpStat stats .valid_frames
      let slave := update_slave_stats slave device_id .valid_frames
      let published := stats.total_frames % STATS_PUBLISH_INTERVAL = 0
      ⟨⟨stats, slave, pending⟩, some (.request device_id), published⟩
    else
      let stats := bumpStat stats .responses
      let slave := update_slave_stats st.slave_stats device_id .responses
      let outcome :=
        match dictGet st.pending_requests device_id with
        | some e =>
          ((now - e.time) * 1000, some e.frame,
           dictDel st.pending_requests device_id)
        | none => (0, none, st.pending_requests)
      let stats := bumpStat stats .valid_frames
      let slave := update_slave_stats slave device_id .valid_frames
      let published := stats.total_frames % STATS_PUBLISH_INTERVAL = 0
      ⟨⟨stats, slave, outcome.2.2⟩,
       some (.response device_id outcome.1 outcome.2.1), published⟩

/-- Run `process_frame` over a trace of `(frame, arrival time)` pairs,
starting from the freshly initialised sniffer. -/
def runSniffer (tr : List (List Nat × ℚ)) : SnifferState :=
  tr.foldl (fun st p => (process_frame st p.1 p.2).state) initState

/-- Whether processing the `i`-th frame of a trace invokes
`publish_stats`. -/
def publishesAt (tr : List (List Nat × ℚ)) (i : Nat) : Bool :=
  match tr[i]? with
  | some p => (process_frame (runSniffer (tr.take i)) p.1 p.2).published
  | none => false

/-- The sniffer states reachable from `initState` by processing frames. -/
inductive Reachable : SnifferState → Prop where
  | init : Reachable initState
  | step (st : SnifferState) (frame_data : List Nat) (now : ℚ) :
      Reachable st → Reachable (process_frame st frame_data now).state

/-- `find?` over `range'` returns the first element satisfying the
predicate. -/
lemma find?_range'_first (p : Nat → Bool) :
    ∀ (n a m : Nat), a ≤ m → m < a + n → p m = true →
      (∀ k, a ≤ k → k < m → p k = false) →
      (List.range' a n).find? p = some m := by
  intro n
  induction n with
  | zero => intro a m h1 h2; omega
  | succ n ih =>
    intro a m h1 h2 hp hmin
    rw [List.range'_succ]
    rcases Nat.eq_or_lt_of_le h1 with rfl | hlt
    · exact List.find?_cons_of_pos _ hp
    · rw [List.find?_cons_of_neg]
      · exact ih (a + 1) m hlt (by omega) hp (fun k hk1 hk2 => hmin k (by omega) hk2)
      · simp [hmin a le_rfl hlt]

/-- `findSome?` over `range'` returns the image of the first element on
which the function returns `some`. -/
lemma findSome?_range'_first {β : Type} (g : Nat → Option β) :
    ∀ (n a m : Nat) (b : β), a ≤ m → m < a + n → g m = some b →
      (∀ k, a ≤ k → k < m → g k = none) →
      (List.range' a n).findSome? g = some b := by
  intro n
  induction n with
  | zero => intro a m b h1 h2; omega
  | succ n ih =>
    intro a m b h1 h2 hg hmin
    rw [List.range'_succ, List.findSome?_cons]
    rcases Nat.eq_or_lt_of_le h1 with rfl | hlt
    · rw [hg]
    · rw [hmin a le_rfl hlt]
      exact ih (a + 1) m b hlt (by omega) hg (fun k hk1 hk2 => hmin k (by omega) hk2)

/-- Frames shorter than `MIN_FRAME_SIZE` never pass CRC verification. -/
lemma verify_crc_short (frame : List Nat) (h : frame.length < MIN_FRAME_SIZE) :
    verify_crc frame = false := by
  simp only [verify_crc, if_pos h]

/-- The inner length search succeeds on the first valid candidate length:
if `l0 ∈ [4, 255]` fits in the remaining bytes, verifies, and no shorter
candidate verifies, `findLen` returns `l0`. -/
lemma findLen_eq_some (remaining : List Nat) (l0 : Nat)
    (h4 : MIN_FRAME_SIZE ≤ l0) (h255 : l0 ≤ 255)
    (hrem : l0 ≤ remaining.length)
    (hv : verify_crc (remaining.take l0) = true)
    (hmin : ∀ k, MIN_FRAME_SIZE ≤ k → k < l0 →
      verify_crc (remaining.take k) = false) :
    findLen remaining = some l0 := by
  unfold findLen candidateLengths
  apply find?_range'_first _ _ _ _ h4 _ hv
  · intro k hk1 hk2
    exact hmin k hk1 hk2
  · simp only [MIN_FRAME_SIZE, MAX_FRAME_SIZE] at *
    omega

/-- The inner length search fails when no candidate of any length up to
the remaining byte count verifies. -/
lemma findLen_eq_none (remaining : List Nat)
    (h : ∀ l, l ≤ remaining.length → verify_crc (remaining.take l) = false) :
    findLen remaining = none := by
  unfold findLen candidateLengths
  rw [List.find?_eq_none]
  intro x hx
  rw [List.mem_range'_1] at hx
  simp only [MIN_FRAME_SIZE, MAX_FRAME_SIZE] at hx
  simp [h x (by omega)]

/-- The sliding-window search finds the first offset at which some
candidate length verifies. -/
lemma findFrame_eq_some (buffer : List Nat) (s0 l0 : Nat)
    (hs : s0 + MIN_FRAME_SIZE ≤ buffer.length)
    (hfound : findLen (buffer.drop s0) = some l0)
    (hnone : ∀ s, s < s0 → findLen (buffer.drop s) = none) :
    findFrame buffer = some (s0, l0) := by
  unfold findFrame
  rw [List.range_eq_range']
  apply findSome?_range'_first _ _ _ s0 _ (Nat.zero_le _)
  · simp only [MIN_FRAME_SIZE] at hs; omega
  · rw [hfound]; rfl
  · intro k _ hk2
    rw [hnone k hk2]; rfl

/-- Facts about any hit of the sliding-window search: the length is a
legal candidate (between 4 and 255, within the buffer) and it verifies. -/
lemma findFrame_inv (buffer : List Nat) (s l : Nat)
    (h : findFrame buffer = some (s, l)) :
    MIN_FRAME_SIZE ≤ l ∧ l ≤ 255 ∧ s + l ≤ buffer.length ∧
      verify_crc ((buffer.drop s).take l) = true := by
  unfold findFrame at h
  obtain ⟨a, _, ha⟩ := List.exists_of_findSome?_eq_some h
  cases hfl : findLen (buffer.drop a) with
  | none => rw [hfl] at ha; simp at ha
  | some l' =>
    rw [hfl] at ha
    simp only [Option.map_some'] at ha
    have h1 : a = s := congrArg Prod.fst (Option.some.inj ha)
    have h2 : l' = l := congrArg Prod.snd (Option.some.inj ha)
    subst h1
    subst h2
    unfold findLen candidateLengths at hfl
    have hmem := List.mem_of_find?_eq_some hfl
    have hp := List.find?_some hfl
    rw [List.mem_range'_1] at hmem
    have hlen : (buffer.drop a).length = buffer.length - a := List.length_drop a buffer
    simp only [MIN_FRAME_SIZE, MAX_FRAME_SIZE] at hmem ⊢
    refine ⟨by omega, by omega, by omega, by simpa using hp⟩

/-- A buffer shorter than `MIN_FRAME_SIZE` is returned untouched, whatever
the fuel. -/
lemma extract_frames_fuel_short (fuel : Nat) (buffer : List Nat)
    (h : buffer.length < MIN_FRAME_SIZE) :
    extract_frames_fuel fuel buffer = ([], buffer) := by
  cases fuel with
  | zero => rfl
  | succ f =>
    have hneg : ¬ MIN_FRAME_SIZE ≤ buffer.length := not_le.mpr h
    simp only [extract_frames_fuel, if_neg hneg]

/-- The fuelled loop is fuel-insensitive once the fuel covers the buffer
length: each continuing iteration shrinks the buffer by at least
`MIN_FRAME_SIZE` (frame found) or `BUFFER_CLEANUP_SIZE` (overflow
cleanup). -/
lemma extract_frames_fuel_congr :
    ∀ (f1 : Nat) (buffer : List Nat), buffer.length ≤ f1 →
      ∀ f2, buffer.length ≤ f2 →
        extract_frames_fuel f1 buffer = extract_frames_fuel f2 buffer := by
  intro f1
  induction f1 with
  | zero =>
    intro buffer h1 f2 _
    have hshort : buffer.length < MIN_FRAME_SIZE := by
      have : (4 : Nat) = MIN_FRAME_SIZE := rfl
      omega
    rw [extract_frames_fuel_short 0 buffer hshort,
      extract_frames_fuel_short f2 buffer hshort]
  | succ f1 ih =>
    intro buffer h1 f2 h2
    by_cases hshort : buffer.length < MIN_FRAME_SIZE
    · rw [extract_frames_fuel_short _ _ hshort, extract_frames_fuel_short _ _ hshort]
    · have hlen : MIN_FRAME_SIZE ≤ buffer.length := not_lt.mp hshort
      have h4 : 4 ≤ buffer.length := hlen
      obtain ⟨f2', rfl⟩ : ∃ k, f2 = k + 1 := by
        cases f2 with
        | zero => omega
        | succ k => exact ⟨k, rfl⟩
      cases hf : findFrame buffer with
      | some sl =>
        obtain ⟨s, l⟩ := sl
        obtain ⟨hl4, _, hsl, _⟩ := findFrame_inv buffer s l hf
        have hl4' : 4 ≤ l := hl4
        have hrest1 : (buffer.drop (s + l)).length ≤ f1 := by
          rw [List.length_drop]; omega
        have hrest2 : (buffer.drop (s + l)).length ≤ f2' := by
          rw [List.length_drop]; omega
        simp only [extract_frames_fuel, if_pos hlen, hf,
          ih (buffer.drop (s + l)) hrest1 f2' hrest2]
      | none =>
        by_cases hbig : MAX_BUFFER_SIZE < buffer.length
        · have hbig' : 512 < buffer.length := hbig
          have hrest1 : (buffer.drop BUFFER_CLEANUP_SIZE).length ≤ f1 := by
            rw [List.length_drop]
            have : (256 : Nat) = BUFFER_CLEANUP_SIZE := rfl
            omega
          have hrest2 : (buffer.drop BUFFER_CLEANUP_SIZE).length ≤ f2' := by
            rw [List.length_drop]
            have : (256 : Nat) = BUFFER_CLEANUP_SIZE := rfl
            omega
          simp only [extract_frames_fuel, if_pos hlen, hf, if_pos hbig,
            ih (buffer.drop BUFFER_CLEANUP_SIZE) hrest1 f2' hrest2]
        · simp only [extract_frames_fuel, if_pos hlen, hf, if_neg hbig]

/-- With enough fuel, the retained buffer is never longer than
`MAX_BUFFER_SIZE`. -/
lemma extract_frames_fuel_rem_le :
    ∀ (fuel : Nat) (buffer : List Nat), buffer.length ≤ fuel →
      (extract_frames_fuel fuel buffer).2.length ≤ MAX_BUFFER_SIZE := by
  intro fuel
  induction fuel with
  | zero =>
    intro buffer h
    show buffer.length ≤ MAX_BUFFER_SIZE
    have : (512 : Nat) = MAX_BUFFER_SIZE := rfl
    omega
  | succ f ih =>
    intro buffer h1
    by_cases hshort : buffer.length < MIN_FRAME_SIZE
    · rw [extract_frames_fuel_short _ _ hshort]
      show buffer.length ≤ MAX_BUFFER_SIZE
      have h4 : buffer.length < 4 := hshort
      have : (512 : Nat) = MAX_BUFFER_SIZE := rfl
      omega
    · have hlen : MIN_FRAME_SIZE ≤ buffer.length := not_lt.mp hshort
      have h4 : 4 ≤ buffer.length := hlen
      cases hf : findFrame buffer with
      | some sl =>
        obtain ⟨s, l⟩ := sl
        obtain ⟨hl4, _, hsl, _⟩ := findFrame_inv buffer s l hf
        have hl4' : 4 ≤ l := hl4
        simp only [extract_frames_fuel, if_pos hlen, hf]
        apply ih
        rw [List.length_drop]
        omega
      | none =>
        by_cases hbig : MAX_BUFFER_SIZE < buffer.length
        · have hbig' : 512 < buffer.length := hbig
          simp only [extract_frames_fuel, if_pos hlen, hf, if_pos hbig]
          apply ih
          rw [List.length_drop]
          have : (256 : Nat) = BUFFER_CLEANUP_SIZE := rfl
          omega
        · simp only [extract_frames_fuel, if_pos hlen, hf, if_neg hbig]
          exact not_lt.mp hbig

/-- The key stepping lemma for the extractor: if the buffer is garbage
(no window starting inside it verifies) followed by a CRC-valid frame `A`
(of legal length, none of whose proper prefixes verifies) followed by
anything, then the extractor emits `A` first and continues on the rest. -/
lemma extract_frames_append (g A r : List Nat)
    (hA4 : MIN_FRAME_SIZE ≤ A.length) (hA255 : A.length ≤ 255)
    (hAv : verify_crc A = true)
    (hAmin : ∀ l, l < A.length → verify_crc (A.take l) = false)
    (hg : ∀ s, s < g.length → ∀ l, l ≤ ((g ++ A ++ r).drop s).length →
      verify_crc (((g ++ A ++ r).drop s).take l) = false) :
    extract_frames (g ++ A ++ r) =
      (A :: (extract_frames r).1, (extract_frames r).2) := by
  have hMIN : (4 : Nat) = MIN_FRAME_SIZE := rfl
  have hA4' : 4 ≤ A.length := hA4
  have hlen : (g ++ A ++ r).length = g.length + A.length + r.length := by
    rw [List.length_append, List.length_append]
  have hdropg : (g ++ A ++ r).drop g.length = A ++ r := by
    rw [List.append_assoc, List.drop_left]
  have hfound : findLen ((g ++ A ++ r).drop g.length) = some A.length := by
    rw [hdropg]
    refine findLen_eq_some _ _ hA4 hA255 ?_ ?_ ?_
    · rw [List.length_append]; omega
    · rw [List.take_left]; exact hAv
    · intro k _ hk2
      rw [List.take_append_of_le_length (by omega)]
      exact hAmin k hk2
  have hs0 : g.length + MIN_FRAME_SIZE ≤ (g ++ A ++ r).length := by
    rw [hlen]; omega
  have hff : findFrame (g ++ A ++ r) = some (g.length, A.length) :=
    findFrame_eq_some _ _ _ hs0 hfound
      (fun s hs => findLen_eq_none _ (fun l hl => hg s hs l hl))
  have h4 : 4 ≤ (g ++ A ++ r).length := by omega
  obtain ⟨t, ht⟩ : ∃ t, (g ++ A ++ r).length = t + 1 := by
    cases hh : (g ++ A ++ r).length with
    | zero => omega
    | succ k => exact ⟨k, rfl⟩
  have hpos : MIN_FRAME_SIZE ≤ (g ++ A ++ r).length := by omega
  have hframe : ((g ++ A ++ r).drop g.length).take A.length = A := by
    rw [hdropg, List.take_left]
  have hrest : (g ++ A ++ r).drop (g.length + A.length) = r := by
    have hassoc : (g ++ A ++ r) = (g ++ A) ++ r := by rw [List.append_assoc]
    rw [hassoc, ← List.length_append g A, List.drop_left]
  have hcongr : extract_frames_fuel t r = extract_frames_fuel r.length r :=
    extract_frames_fuel_congr t r (by omega) r.length le_rfl
  unfold extract_frames
  rw [ht]
  simp only [extract_frames_fuel, if_pos hpos, hff, hframe, hrest, hcongr]

/-- After `m[k] = v`, looking up `k` yields `v`. -/
lemma dictGet_dictSet_self {κ α : Type} [DecidableEq κ]
    (m : List (κ × α)) (k : κ) (v : α) :
    dictGet (dictSet m k v) k = some v := by
  unfold dictSet dictGet
  by_cases hany : m.any (fun p => decide (p.1 = k)) = true
  · rw [if_pos hany]
    induction m with
    | nil => simp at hany
    | cons p m' ih =>
      by_cases hp : p.1 = k
      · simp only [List.map_cons, if_pos hp]
        rw [List.find?_cons_of_pos _ (by simp)]
        rfl
      · simp only [List.map_cons, if_neg hp]
        rw [List.find?_cons_of_neg _ (by simp [hp])]
        apply ih
        simp only [List.any_cons, Bool.or_eq_true] at hany
        rcases hany with h | h
        · exact absurd (of_decide_eq_true h) hp
        · exact h
  · rw [if_neg hany]
    rw [List.find?_append]
    have hnone : m.find? (fun p => decide (p.1 = k)) = none := by
      rw [List.find?_eq_none]
      intro x hx
      simp only [Bool.not_eq_true] at hany ⊢
      rw [List.any_eq_false] at hany
      simpa using hany x hx
    rw [hnone]
    simp

/-- `m[k] = v` does not change the binding of any other key. -/
lemma dictGet_dictSet_ne {κ α : Type} [DecidableEq κ]
    (m : List (κ × α)) (k k' : κ) (v : α) (hne : k' ≠ k) :
    dictGet (dictSet m k v) k' = dictGet m k' := by
  unfold dictSet dictGet
  by_cases hany : m.any (fun p => decide (p.1 = k)) = true
  · rw [if_pos hany]
    clear hany
    induction m with
    | nil => rfl
    | cons p m' ih =>
      by_cases hp : p.1 = k
      · simp only [List.map_cons, if_pos hp]
        rw [List.find?_cons_of_neg _ (by simp [Ne.symm hne]),
          List.find?_cons_of_neg _ (by simp [hp ▸ Ne.symm hne] )]
        exact ih
      · simp only [List.map_cons, if_neg hp]
        by_cases hp' : p.1 = k'
        · rw [List.find?_cons_of_pos _ (by simp [hp']),
            List.find?_cons_of_pos _ (by simp [hp'])]
        · rw [List.find?_cons_of_neg _ (by simp [hp']),
            List.find?_cons_of_neg _ (by simp [hp'])]
          exact ih
  · rw [if_neg hany]
    rw [List.find?_append]
    have h1 : List.find? (fun p => decide (p.1 = k')) [(k, v)] = none := by
      rw [List.find?_eq_none]
      intro x hx
      simp only [List.mem_singleton] at hx
      simp [hx, Ne.symm hne]
    rw [h1, Option.or_none]

/-- `m[k] = v` keeps the key list duplicate-free. -/
lemma dictSet_keys_nodup {κ α : Type} [DecidableEq κ]
    (m : List (κ × α)) (k : κ) (v : α)
    (h : (m.map Prod.fst).Nodup) :
    ((dictSet m k v).map Prod.fst).Nodup := by
  unfold dictSet
  by_cases hany : m.any (fun p => decide (p.1 = k)) = true
  · rw [if_pos hany]
    have : (m.map (fun p => if p.1 = k then (k, v) else p)).map Prod.fst
        = m.map Prod.fst := by
      rw [List.map_map]
      apply List.map_congr_left
      intro p _
      by_cases hp : p.1 = k
      · simp [hp]
      · simp [hp]
    rw [this]
    exact h
  · rw [if_neg hany]
    rw [List.map_append, List.nodup_append]
    refine ⟨h, by simp, ?_⟩
    intro x hx hx'
    simp only [List.map_cons, List.map_nil, List.mem_singleton] at hx'
    subst hx'
    simp only [Bool.not_eq_true] at hany
    rw [List.any_eq_false] at hany
    obtain ⟨p, hp, hpk⟩ := List.mem_map.mp hx
    exact absurd hpk (by simpa using hany p hp)

/-- After `del m[k]`, looking up `k` fails. -/
lemma dictGet_dictDel_self {κ α : Type} [DecidableEq κ]
    (m : List (κ × α)) (k : κ) :
    dictGet (dictDel m k) k = none := by
  unfold dictDel dictGet
  have : (m.filter (fun p => decide (p.1 ≠ k))).find?
      (fun p => decide (p.1 = k)) = none := by
    rw [List.find?_eq_none]
    intro x hx
    have := List.of_mem_filter hx
    simp only [decide_eq_true_iff] at this
    simp [this]
  rw [this]
  rfl

/-- `del m[k]` does not change the binding of any other key. -/
lemma dictGet_dictDel_ne {κ α : Type} [DecidableEq κ]
    (m : List (κ × α)) (k k' : κ) (hne : k' ≠ k) :
    dictGet (dictDel m k) k' = dictGet m k' := by
  unfold dictDel dictGet
  induction m with
  | nil => rfl
  | cons p m' ih =>
    by_cases hp : p.1 = k
    · rw [List.filter_cons_of_neg (by simp [hp])]
      rw [List.find?_cons_of_neg _ (by simp [hp, Ne.symm hne])]
      exact ih
    · rw [List.filter_cons_of_pos (by simp [hp])]
      by_cases hp' : p.1 = k'
      · rw [List.find?_cons_of_pos _ (by simp [hp']),
          List.find?_cons_of_pos _ (by simp [hp'])]
      · rw [List.find?_cons_of_neg _ (by simp [hp']),
          List.find?_cons_of_neg _ (by simp [hp'])]
        exact ih

/-- `del m[k]` keeps the key list duplicate-free. -/
lemma dictDel_keys_nodup {κ α : Type} [DecidableEq κ]
    (m : List (κ × α)) (k : κ)
    (h : (m.map Prod.fst).Nodup) :
    ((dictDel m k).map Prod.fst).Nodup :=
  ((List.filter_sublist m).map Prod.fst).nodup h

/-- Every processed frame of legal length bumps `total_frames` and
`valid_frames` by one (requests and responses alike), and `publish_stats`
is invoked exactly when the new `total_frames` is a multiple of
`STATS_PUBLISH_INTERVAL`. -/
lemma process_frame_counts (st : SnifferState) (f : List Nat) (now : ℚ)
    (h : MIN_FRAME_SIZE ≤ f.length) :
    (process_frame st f now).state.stats.total_frames = st.stats.total_frames + 1 ∧
    (process_frame st f now).state.stats.valid_frames = st.stats.valid_frames + 1 ∧
    (process_frame st f now).published
      = decide ((st.stats.total_frames + 1) % STATS_PUBLISH_INTERVAL = 0) := by
  have hn : ¬ f.length < MIN_FRAME_SIZE := not_lt.mpr h
  by_cases hreq : is_modbus_request (f.getD 1 0) f = true
  · have hreq' : is_modbus_request (f[1]?.getD 0) f = true := by simpa using hreq
    simp [process_frame, hn, hreq', bumpStat]
  · rw [Bool.not_eq_true] at hreq
    have hreq' : is_modbus_request (f[1]?.getD 0) f = false := by simpa using hreq
    cases hget : dictGet st.pending_requests (f[0]?.getD 0) <;>
      simp [process_frame, hn, hreq', hget, bumpStat]

/-- `process_frame` only ever leaves the pending-request dict alone,
overwrites one key, or deletes one key. -/
lemma process_frame_pending_cases (st : SnifferState) (f : List Nat) (now : ℚ) :
    (process_frame st f now).state.pending_requests = st.pending_requests ∨
    (∃ d e, (process_frame st f now).state.pending_requests
      = dictSet st.pending_requests d e) ∨
    (∃ d, (process_frame st f now).state.pending_requests
      = dictDel st.pending_requests d) := by
  by_cases hn : f.length < MIN_FRAME_SIZE
  · left; simp [process_frame, hn]
  · by_cases hreq : is_modbus_request (f.getD 1 0) f = true
    · have hreq' : is_modbus_request (f[1]?.getD 0) f = true := by simpa using hreq
      right; left
      exact ⟨f[0]?.getD 0, ⟨f, now, f[1]?.getD 0⟩,
        by simp [process_frame, hn, hreq']⟩
    · rw [Bool.not_eq_true] at hreq
      have hreq' : is_modbus_request (f[1]?.getD 0) f = false := by simpa using hreq
      cases hget : dictGet st.pending_requests (f[0]?.getD 0) with
      | none => left; simp [process_frame, hn, hreq', hget]
      | some e =>
        right; right
        exact ⟨f[0]?.getD 0, by simp [process_frame, hn, hreq', hget]⟩

/-- In every reachable sniffer state the pending-request dict has
duplicate-free keys: at most one pending request per device id. -/
lemma reachable_pending_nodup (st : SnifferState) (h : Reachable st) :
    (st.pending_requests.map Prod.fst).Nodup := by
  induction h with
  | init => simp [initState]
  | step st' f now _ ih =>
    rcases process_frame_pending_cases st' f now with heq | ⟨d, e, heq⟩ | ⟨d, heq⟩
    · rw [heq]; exact ih
    · rw [heq]; exact dictSet_keys_nodup _ _ _ ih
    · rw [heq]; exact dictDel_keys_nodup _ _ ih

/-- Folding `process_frame` over a trace of legal-length frames advances
`total_frames` and `valid_frames` in lockstep, by the trace length. -/
lemma foldl_process_counts (tr : List (List Nat × ℚ)) :
    ∀ st : SnifferState, (∀ p ∈ tr, MIN_FRAME_SIZE ≤ p.1.length) →
      (tr.foldl (fun st p => (process_frame st p.1 p.2).state) st).stats.total_frames
        = st.stats.total_frames + tr.length ∧
      (tr.foldl (fun st p => (process_frame st p.1 p.2).state) st).stats.valid_frames
        = st.stats.valid_frames + tr.length := by
  induction tr with
  | nil => intro st _; simp
  | cons p tr' ih =>
    intro st h
    have hp := h p (List.mem_cons_self p tr')
    obtain ⟨ht, hv, _⟩ := process_frame_counts st p.1 p.2 hp
    simp only [List.foldl_cons, List.length_cons]
    obtain ⟨iht, ihv⟩ := ih ((process_frame st p.1 p.2).state)
      (fun q hq => h q (List.mem_cons_of_mem p hq))
    constructor
    · rw [iht, ht]; omega
    · rw [ihv, hv]; omega

/-- C10: for every input byte sequence, `extract_frames` terminates (it is
a total function, justified by the strictly shrinking buffer measure of
`extract_frames_fuel_congr`) and the retained buffer it returns never
exceeds `MAX_BUFFER_SIZE = 512` bytes. -/
theorem extract_frames_remainder_C10 (buffer : List Nat) :
    (extract_frames buffer).2.length ≤ MAX_BUFFER_SIZE :=
  extract_frames_fuel_rem_le buffer.length buffer le_rfl

/-- C6: the candidate frame lengths tried at a start offset with 256
remaining bytes never include 256 (only 4..255 are tried), although 255 is
tried both there and with 255 remaining bytes.  This contradicts the
claimed inclusive upper bound `min(remaining, MAX_FRAME_SIZE = 256)`: a
CRC-valid frame of exactly 256 bytes is never accepted, because Python's
`range(MIN_FRAME_SIZE, min(len(remaining) + 1, MAX_FRAME_SIZE))` excludes
`MAX_FRAME_SIZE` itself. -/
theorem candidate_lengths_C6 :
    (candidateLengths 256).contains 256 = false ∧
    (candidateLengths 256).contains 255 = true ∧
    (candidateLengths 255).contains 255 = true := by decide

/-- C4 (counterexample to the claim as stated): for the empty byte
sequence `d`, `verify(d ++ compute(d))` is false, because the resulting
2-byte frame is shorter than `MIN_FRAME_SIZE` and is rejected by the
length guard of `verify_crc`. -/
theorem crc_roundtrip_C4_cex :
    verify_crc (([] : List Nat) ++ calculate_crc []) = false := by decide

/-- C4 (amended): for every byte sequence `d` of length at least 2,
`verify(d ++ compute(d))` is true; and for every frame of length at least
`MIN_FRAME_SIZE`, `verify(frame)` is true iff the last two bytes equal the
CRC16 of the preceding bytes. -/
theorem crc_roundtrip_C4 (d frame : List Nat) :
    (2 ≤ d.length → verify_crc (d ++ calculate_crc d) = true) ∧
    (MIN_FRAME_SIZE ≤ frame.length →
      (verify_crc frame = true ↔
        frame.drop (frame.length - 2)
          = calculate_crc (frame.take (frame.length - 2)))) := by
  constructor
  · intro hd
    have hc : (calculate_crc d).length = 2 := rfl
    have hlen : (d ++ calculate_crc d).length = d.length + 2 := by
      rw [List.length_append, hc]
    have hMIN : (4 : Nat) = MIN_FRAME_SIZE := rfl
    unfold verify_crc
    rw [if_neg (by omega)]
    have h2 : (d ++ calculate_crc d).length - 2 = d.length := by omega
    rw [h2, List.take_left, List.drop_left]
    exact beq_self_eq_true _
  · intro h
    unfold verify_crc
    rw [if_neg (not_lt.mpr h)]
    exact beq_iff_eq

/-- C4 witness: the amended round-trip and characterisation at concrete
inputs. -/
theorem crc_roundtrip_C4_w :
    verify_crc ([1, 2] ++ calculate_crc [1, 2]) = true ∧
    (verify_crc [1, 2, 129, 225] = true ↔
      [1, 2, 129, 225].drop ([1, 2, 129, 225].length - 2)
        = calculate_crc ([1, 2, 129, 225].take ([1, 2, 129, 225].length - 2))) :=
  ⟨(crc_roundtrip_C4 [1, 2] []).1 (by decide),
   (crc_roundtrip_C4 [] [1, 2, 129, 225]).2 (by decide)⟩

/-- C8: decoding a read-response whose value at status register 2108 is
raw `0x21` emits one boolean reading per entry of the `r2108_bits` table,
each named `"R2108 <bit name>"` with value `(value & mask) != 0` and
register descriptor `"2108b<bit>"`; among all emitted readings exactly the
bit-0 and bit-5 readings (Fan Low/High Speed Mode) are true. -/
theorem r2108_decode_C8 :
    (r2108_bits.all (fun bp =>
      dictGet (parse_read_response 2108 [0x21]) ("R2108 " ++ bp.2.name)
        == some ⟨.bval (decide (Int.land 33 (bp.2.bitmask : Int) ≠ 0)), "",
             some "binary_sensor", .regbit ("2108b" ++ toString bp.1), 33⟩))
      = true ∧
    ((parse_read_response 2108 [0x21]).filter
        (fun p => p.2.value == ReadingValue.bval true)).map Prod.fst
      = ["R2108 Fan Low Speed Mode", "R2108 Fan High Speed Mode"] := by
  constructor
  · decide
  · decide

/-- C2: `is_modbus_request` is total, decides purely from the function
code and the frame length, and classifies as the claim states: bit 7 set
means Response; read codes 0x01-0x04 are Requests iff at most 8 bytes;
0x06 iff exactly 8; 0x10 iff more than 9; every other code defaults to
Request.  In particular code 0x03 at length 8 is a Request and 0x83 is
always a Response. -/
theorem is_modbus_request_spec_C2 (fc : Nat) (f : List Nat) :
    (∀ g : List Nat, g.length = f.length →
      is_modbus_request fc g = is_modbus_request fc f) ∧
    (fc &&& 0x80 ≠ 0 → is_modbus_request fc f = false) ∧
    (fc ∈ [0x01, 0x02, 0x03, 0x04] →
      (is_modbus_request fc f = true ↔ f.length ≤ 8)) ∧
    (fc = 0x06 → (is_modbus_request fc f = true ↔ f.length = 8)) ∧
    (fc = 0x10 → (is_modbus_request fc f = true ↔ 9 < f.length)) ∧
    (fc &&& 0x80 = 0 → fc ∉ [0x01, 0x02, 0x03, 0x04] → fc ≠ 0x06 → fc ≠ 0x10 →
      is_modbus_request fc f = true) ∧
    (f.length = 8 → is_modbus_request 0x03 f = true) ∧
    (is_modbus_request 0x83 f = false) := by
  refine ⟨?_, ?_, ?_, ?_, ?_, ?_, ?_, ?_⟩
  · intro g hg
    simp only [is_modbus_request, hg]
  · intro h
    unfold is_modbus_request
    rw [if_pos h]
  · intro h
    fin_cases h <;>
      · unfold is_modbus_request
        rw [if_neg (by decide), if_pos (by decide)]
        exact decide_eq_true_iff
  · intro h
    subst h
    unfold is_modbus_request
    rw [if_neg (by decide), if_neg (by decide), if_pos rfl]
    exact decide_eq_true_iff
  · intro h
    subst h
    unfold is_modbus_request
    rw [if_neg (by decide), if_neg (by decide), if_neg (by decide), if_pos rfl]
    exact decide_eq_true_iff
  · intro h1 h2 h3 h4
    unfold is_modbus_request
    rw [if_neg (by simp [h1]), if_neg h2, if_neg h3, if_neg h4]
  · intro hf
    unfold is_modbus_request
    rw [if_neg (by decide), if_pos (by decide), hf]
    decide
  · unfold is_modbus_request
    rw [if_pos (by decide)]

/-- C2 witness: the two "in particular" classifications at concrete
frames. -/
theorem is_modbus_request_spec_C2_w :
    is_modbus_request 0x03 [1, 3, 0, 0, 0, 1, 132, 10] = true ∧
    is_modbus_request 0x83 [1, 131, 2, 0, 0] = false :=
  ⟨(is_modbus_request_spec_C2 3 [1, 3, 0, 0, 0, 1, 132, 10]).2.2.2.2.2.2.1
      (by decide),
   (is_modbus_request_spec_C2 131 [1, 131, 2, 0, 0]).2.2.2.2.2.2.2⟩

/-- C3: for every raw register value decoded under a mapping of semantic
class temperature, the decoded value is: reinterpret raw values above
32767 as signed 16-bit two's complement, add the mapping's offset, then
multiply by the mapping's scale, then clamp to the interval `[-30, 150]`. -/
theorem temperature_decode_C3 (addr : Nat) (m : RegisterMapping) (raw : Nat)
    (hm : register_mappings addr = some m)
    (htemp : m.device_class = some "temperature") :
    decode_value m raw =
      max (-30)
        (min (((if 32767 < raw then (raw : ℚ) - 65536 else (raw : ℚ))
            + m.offset) * m.scale) 150) := by
  simp only [decode_value, decode_signed, htemp, TEMPERATURE_MIN,
    TEMPERATURE_MAX, eq_self_iff_true, true_and, if_true]
  by_cases hr : 32767 < raw
  · rw [if_pos hr, if_pos hr]
    push_cast
    ring_nf
  · rw [if_neg hr, if_neg hr]
    push_cast
    ring_nf

/-- C3 witness: raw `0xFFFF` at temperature address 2110 (offset −3000,
scale 0.01) decodes to exactly −30. -/
theorem temperature_decode_C3_w :
    register_mappings 2110
      = some ⟨"Outside Temperature", "°C", 1/100, -3000, some "temperature"⟩ ∧
    decode_value
      ⟨"Outside Temperature", "°C", 1/100, -3000, some "temperature"⟩ 0xFFFF
      = -30 := by
  constructor
  · rfl
  · rw [temperature_decode_C3 2110 _ 0xFFFF rfl rfl]
    rw [if_pos (by norm_num)]
    norm_num

/-- C5: on a Response-classified frame for device `d`: if a pending
request exists, the reported `response_time_ms` is (now − stored time)
(in milliseconds), the matched request frame is returned, and the pending
entry for `d` is removed (other devices untouched); if none exists, the
latency is reported as the unknown sentinel 0 with no matched request
frame, and the pending dict is unchanged. -/
theorem response_correlation_C5 (st : SnifferState) (f : List Nat) (now : ℚ)
    (hlen : MIN_FRAME_SIZE ≤ f.length)
    (hresp : is_modbus_request (f.getD 1 0) f = false) :
    (∀ e, dictGet st.pending_requests (f.getD 0 0) = some e →
      (process_frame st f now).event
        = some (.response (f.getD 0 0) ((now - e.time) * 1000) (some e.frame)) ∧
      dictGet (process_frame st f now).state.pending_requests (f.getD 0 0)
        = none ∧
      (∀ d', d' ≠ f.getD 0 0 →
        dictGet (process_frame st f now).state.pending_requests d'
          = dictGet st.pending_requests d')) ∧
    (dictGet st.pending_requests (f.getD 0 0) = none →
      (process_frame st f now).event = some (.response (f.getD 0 0) 0 none) ∧
      (process_frame st f now).state.pending_requests
        = st.pending_requests) := by
  have hn : ¬ f.length < MIN_FRAME_SIZE := not_lt.mpr hlen
  have hresp' : is_modbus_request (f[1]?.getD 0) f = false := by simpa using hresp
  constructor
  · intro e he
    have he' : dictGet st.pending_requests (f[0]?.getD 0) = some e := by
      simpa using he
    refine ⟨?_, ?_, ?_⟩
    · simp [process_frame, hn, hresp', he']
    · simp [process_frame, hn, hresp', he', dictGet_dictDel_self]
    · intro d' hd'
      have hd'' : d' ≠ f[0]?.getD 0 := by simpa using hd'
      simp [process_frame, hn, hresp', he', dictGet_dictDel_ne _ _ _ hd'']
  · intro he
    have he' : dictGet st.pending_requests (f[0]?.getD 0) = none := by
      simpa using he
    constructor <;> simp [process_frame, hn, hresp', he']

/-- C5 witness: a concrete pending request for device 1 at time 2 and a
response at time 5 are matched with latency (5 − 2)·1000 ms. -/
theorem response_correlation_C5_w :
    (process_frame
        ⟨initStats, [], [(1, ⟨[1, 3, 0, 0, 0, 1, 132, 10], 2, 3⟩)]⟩
        [1, 131, 2, 0, 0] 5).event
      = some (.response 1 (((5 : ℚ) - 2) * 1000)
          (some [1, 3, 0, 0, 0, 1, 132, 10])) :=
  ((response_correlation_C5
      ⟨initStats, [], [(1, ⟨[1, 3, 0, 0, 0, 1, 132, 10], 2, 3⟩)]⟩
      [1, 131, 2, 0, 0] 5 (by decide) (by decide)).1
    ⟨[1, 3, 0, 0, 0, 1, 132, 10], 2, 3⟩ rfl).1

/-- C9: in every reachable sniffer state the pending-request table has at
most one entry per device id, and processing a Request-classified frame
stores that frame with its arrival time under the device id, overwriting
(not queueing behind) any prior entry while leaving other devices'
entries untouched and keeping the table duplicate-free. -/
theorem pending_overwrite_C9 (st : SnifferState) (hst : Reachable st) :
    (st.pending_requests.map Prod.fst).Nodup ∧
    (∀ f now, MIN_FRAME_SIZE ≤ f.length →
      is_modbus_request (f.getD 1 0) f = true →
      dictGet (process_frame st f now).state.pending_requests (f.getD 0 0)
        = some ⟨f, now, f.getD 1 0⟩ ∧
      (∀ d', d' ≠ f.getD 0 0 →
        dictGet (process_frame st f now).state.pending_requests d'
          = dictGet st.pending_requests d') ∧
      ((process_frame st f now).state.pending_requests.map Prod.fst).Nodup) := by
  have hnodup := reachable_pending_nodup st hst
  refine ⟨hnodup, ?_⟩
  intro f now h hreq
  have hn : ¬ f.length < MIN_FRAME_SIZE := not_lt.mpr h
  have hreq' : is_modbus_request (f[1]?.getD 0) f = true := by simpa using hreq
  have hpend : (process_frame st f now).state.pending_requests
      = dictSet st.pending_requests (f[0]?.getD 0) ⟨f, now, f[1]?.getD 0⟩ := by
    simp [process_frame, hn, hreq']
  refine ⟨?_, ?_, ?_⟩
  · simp only [List.getD_eq_getElem?_getD] at *
    rw [hpend]
    exact dictGet_dictSet_self _ _ _
  · intro d' hd'
    have hd'' : d' ≠ f[0]?.getD 0 := by simpa using hd'
    rw [hpend]
    exact dictGet_dictSet_ne _ _ _ _ hd''
  · rw [hpend]
    exact dictSet_keys_nodup _ _ _ hnodup

/-- C9 witness: processing a concrete request frame from the initial
state stores it under device id 1. -/
theorem pending_overwrite_C9_w :
    dictGet (process_frame initState [1, 3, 0, 0, 0, 1, 132, 10] 5).state.pending_requests 1
      = some ⟨[1, 3, 0, 0, 0, 1, 132, 10], 5, 3⟩ :=
  ((pending_overwrite_C9 initState Reachable.init).2
    [1, 3, 0, 0, 0, 1, 132, 10] 5 (by decide) (by decide)).1

/-- C7: along every trace of frames of legal length (the only frames
`extract_frames` ever hands to `process_frame`), `publish_stats` is
invoked at the `i`-th frame iff the running count of valid frames
processed (which is `i + 1`) is a positive multiple of
`STATS_PUBLISH_INTERVAL = 50`. -/
theorem stats_publish_C7 (tr : List (List Nat × ℚ))
    (htr : ∀ p ∈ tr, MIN_FRAME_SIZE ≤ p.1.length)
    (i : Nat) (hi : i < tr.length) :
    publishesAt tr i = true ↔
      (0 < (runSniffer (tr.take (i + 1))).stats.valid_frames ∧
       (runSniffer (tr.take (i + 1))).stats.valid_frames
         % STATS_PUBLISH_INTERVAL = 0) := by
  have hget : tr[i]? = some tr[i] := List.getElem?_eq_getElem hi
  have htake_i : (tr.take i).length = i := by
    rw [List.length_take]; omega
  have htake_i1 : (tr.take (i + 1)).length = i + 1 := by
    rw [List.length_take]; omega
  have hcounts_i := foldl_process_counts (tr.take i) initState
    (fun p hp => htr p (List.take_subset _ _ hp))
  have hst : (runSniffer (tr.take i)).stats.total_frames = i := by
    unfold runSniffer
    rw [hcounts_i.1, htake_i]
    simp [initState, initStats]
  have hframe : MIN_FRAME_SIZE ≤ tr[i].1.length :=
    htr tr[i] (List.getElem_mem hi)
  have hpub := (process_frame_counts (runSniffer (tr.take i))
    tr[i].1 tr[i].2 hframe).2.2
  have hPA : publishesAt tr i
      = (process_frame (runSniffer (tr.take i)) tr[i].1 tr[i].2).published := by
    unfold publishesAt
    rw [hget]
  have hvalid : (runSniffer (tr.take (i + 1))).stats.valid_frames = i + 1 := by
    unfold runSniffer
    rw [(foldl_process_counts (tr.take (i + 1)) initState
      (fun p hp => htr p (List.take_subset _ _ hp))).2, htake_i1]
    simp [initState, initStats]
  rw [hPA, hpub, hst, hvalid, decide_eq_true_iff]
  omega

/-- C7 witness: in a one-frame trace the first frame does not trigger a
snapshot, as 1 is not a multiple of 50. -/
theorem stats_publish_C7_w :
    publishesAt [([1, 3, 0, 0, 0, 1, 132, 10], (0 : ℚ))] 0 = true ↔
      (0 < (runSniffer ([([1, 3, 0, 0, 0, 1, 132, 10], (0 : ℚ))].take (0 + 1))).stats.valid_frames ∧
       (runSniffer ([([1, 3, 0, 0, 0, 1, 132, 10], (0 : ℚ))].take (0 + 1))).stats.valid_frames
         % STATS_PUBLISH_INTERVAL = 0) :=
  stats_publish_C7 [([1, 3, 0, 0, 0, 1, 132, 10], (0 : ℚ))]
    (by decide) 0 (by decide)

/-- C1 (counterexample to the claim as stated): with empty garbage, a
CRC-valid frame `A = [1,2,129,225,0,0]` (length 6) that happens to have a
CRC-valid proper prefix, followed by the CRC-valid frame
`B = [3,4,0,131]`, satisfies every hypothesis of the claim (both frames
CRC-valid with lengths in [4, 256]; no garbage at all), yet extraction
does not process `A` first: leftmost-shortest matching emits the 4-byte
prefix of `A` instead. -/
theorem extract_frames_two_frames_C1_cex :
    verify_crc [1, 2, 129, 225, 0, 0] = true ∧
    verify_crc [3, 4, 0, 131] = true ∧
    MIN_FRAME_SIZE ≤ [1, 2, 129, 225, 0, 0].length ∧
    [1, 2, 129, 225, 0, 0].length ≤ MAX_FRAME_SIZE ∧
    MIN_FRAME_SIZE ≤ [3, 4, 0, 131].length ∧
    [3, 4, 0, 131].length ≤ MAX_FRAME_SIZE ∧
    ((extract_frames
        ([] ++ [1, 2, 129, 225, 0, 0] ++ ([] ++ [3, 4, 0, 131]))).1
      == [[1, 2, 129, 225, 0, 0], [3, 4, 0, 131]]) = false := by decide

/-- C1 (amended): for a buffer `garbage1 ++ A ++ garbage2 ++ B` where `A`
and `B` are CRC-valid frames of length in [4, 255] none of whose proper
prefixes is CRC-valid, and no CRC-valid frame starts inside either
garbage region (including frames spanning a garbage/frame boundary),
extraction processes exactly `A` first and `B` second, discards all
garbage, and every emitted frame has length in
[MIN_FRAME_SIZE, MAX_FRAME_SIZE]. -/
theorem extract_frames_two_frames_C1 (g1 A g2 B : List Nat)
    (hA4 : MIN_FRAME_SIZE ≤ A.length) (hA255 : A.length ≤ 255)
    (hAv : verify_crc A = true)
    (hAmin : ∀ l, l < A.length → verify_crc (A.take l) = false)
    (hB4 : MIN_FRAME_SIZE ≤ B.length) (hB255 : B.length ≤ 255)
    (hBv : verify_crc B = true)
    (hBmin : ∀ l, l < B.length → verify_crc (B.take l) = false)
    (hg1 : ∀ s, s < g1.length → ∀ l, l ≤ ((g1 ++ A ++ (g2 ++ B)).drop s).length →
      verify_crc (((g1 ++ A ++ (g2 ++ B)).drop s).take l) = false)
    (hg2 : ∀ s, s < g2.length → ∀ l, l ≤ ((g2 ++ B).drop s).length →
      verify_crc (((g2 ++ B).drop s).take l) = false) :
    extract_frames (g1 ++ A ++ (g2 ++ B)) = ([A, B], []) ∧
    ∀ fr ∈ (extract_frames (g1 ++ A ++ (g2 ++ B))).1,
      MIN_FRAME_SIZE ≤ fr.length ∧ fr.length ≤ MAX_FRAME_SIZE := by
  have h1 := extract_frames_append g1 A (g2 ++ B) hA4 hA255 hAv hAmin hg1
  have hg2' : ∀ s, s < g2.length → ∀ l, l ≤ ((g2 ++ B ++ []).drop s).length →
      verify_crc (((g2 ++ B ++ []).drop s).take l) = false := by
    simpa [List.append_nil] using hg2
  have h2 := extract_frames_append g2 B [] hB4 hB255 hBv hBmin hg2'
  rw [List.append_nil] at h2
  have hnil : extract_frames ([] : List Nat) = ([], []) := rfl
  rw [hnil] at h2
  have hmain : extract_frames (g1 ++ A ++ (g2 ++ B)) = ([A, B], []) := by
    rw [h1, h2]
  refine ⟨hmain, ?_⟩
  intro fr hfr
  rw [hmain] at hfr
  have hMAX : (256 : Nat) = MAX_FRAME_SIZE := rfl
  simp only [List.mem_cons, List.not_mem_nil, or_false] at hfr
  rcases hfr with rfl | rfl
  · exact ⟨hA4, by omega⟩
  · exact ⟨hB4, by omega⟩

/-- C1 witness: a concrete buffer of one garbage byte, frame
`[1,2,129,225]`, no second garbage and frame `[3,4,0,131]` extracts to
exactly those two frames with nothing retained. -/
theorem extract_frames_two_frames_C1_w :
    extract_frames ([0] ++ [1, 2, 129, 225] ++ ([] ++ [3, 4, 0, 131]))
      = ([[1, 2, 129, 225], [3, 4, 0, 131]], []) :=
  (extract_frames_two_frames_C1 [0] [1, 2, 129, 225] [] [3, 4, 0, 131]
    (by decide) (by decide) (by decide) (by decide)
    (by decide) (by decide) (by decide) (by decide)
    (by decide) (by decide)).1
